import Mathlib

/-!
Verification of the flashcard quiz engine (`flashcard.py`) against its
natural-language specification.

Strings handled by the obfuscation transform are modelled as lists of
code points (`List Nat`), since the transform works with `ord`/`chr`
arithmetic modulo 255.  Ordinary text (answers, terms, deck fields) is
modelled as Lean `String`; Python's `str.lower`, `str.strip` and
`str.split()` are embedded for the ASCII fragment the program exercises.
Randomness (the padding letters of the obfuscation transform, the
per-item mode resolution) is modelled by passing the drawn values as
explicit parameters.  Operator input is modelled as explicit lists of
input strings.  YAML values are modelled by an inductive `YamlVal`;
fallible operations (numeric parsing, re-prompt loops over a finite
input list) return `Option`.
-/

namespace Flashcards

/-! ### Obfuscation transform (`obfuscate_line`) -/

/-- The expansion step of `obfuscate_line`: after every original character
insert one padding character (in the source, a random lowercase letter).
`pad` is the sequence of random draws, one per input character. -/
def expand : List Nat → List Nat → List Nat
  | [], _ => []
  | _ :: _, [] => []
  | c :: cs, p :: ps => c :: p :: expand cs ps

/-- `obfuscate_line`: expand with the padding draws, then shift every
code point by `(code + 7) % 255`. -/
def obfuscate_line (s pad : List Nat) : List Nat :=
  (expand s pad).map fun code => (code + 7) % 255

/-- The extraction described by claim C10: take the characters at even
(0-based) indices. -/
def evenIdx : List Nat → List Nat
  | [] => []
  | [x] => [x]
  | x :: _ :: rest => x :: evenIdx rest

/-- Map each extracted code point through `(c - 7) mod 255`
(as a natural number: `(c + 248) % 255`). -/
def decode_evens (l : List Nat) : List Nat :=
  (evenIdx l).map fun c => (c + 248) % 255

/-! ### Python string primitives

ASCII embedding of Python's `str.lower`, `str.strip` and `str.split()`
(the program's data is ASCII; Python's additional Unicode behaviour is
outside the fragment the claims exercise). -/

/-- The ASCII whitespace characters recognized by Python's `str.strip()`
and `str.split()`: space, tab, newline, carriage return, vertical tab,
form feed. -/
def pyIsSpace (c : Char) : Bool :=
  c = ' ' || c = '\t' || c = '\n' || c = '\r' || c = '\x0b' || c = '\x0c'

/-- ASCII `str.lower`: map `'A'..'Z'` to `'a'..'z'`, leave the rest. -/
def lowerChar (c : Char) : Char :=
  if 65 ≤ c.toNat ∧ c.toNat ≤ 90 then Char.ofNat (c.toNat + 32) else c

/-- Python `s.lower()` on ASCII text. -/
def pyLower (s : String) : String :=
  String.mk (s.toList.map lowerChar)

/-- Remove trailing whitespace from a character list. -/
def dropTrailingWs (cs : List Char) : List Char :=
  (cs.reverse.dropWhile pyIsSpace).reverse

/-- Python `s.strip()`: remove leading and trailing whitespace. -/
def pyStrip (s : String) : String :=
  String.mk (dropTrailingWs (s.toList.dropWhile pyIsSpace))

/-- Worker for Python `s.split()` (no separator argument): splits on runs
of whitespace, producing no empty words.  `acc` holds the reversed
current word. -/
def wordsAux : List Char → List Char → List (List Char)
  | [], acc => if acc = [] then [] else [acc.reverse]
  | c :: cs, acc =>
    if pyIsSpace c then
      if acc = [] then wordsAux cs [] else acc.reverse :: wordsAux cs []
    else wordsAux cs (c :: acc)

/-- `normalize_answer`: `" ".join(s.lower().split())` — lower-case, split
on whitespace runs, re-join with single spaces. -/
def normalize_answer (s : String) : String :=
  String.intercalate " " ((wordsAux (pyLower s).toList []).map fun w => String.mk w)

/-! ### Cards, prompts, and the quiz session (`run_quiz`) -/

/-- A coerced card: the three string fields every card has after
`coerce_card`. -/
structure Card where
  term : String
  full_def : String
  quiz_question : String
deriving DecidableEq

/-- The prompt computation of the `MODE_Q_TO_TERM` branch of `run_quiz`:
`prompt = card.get("quiz_question") or f"Which term fits: {...strip()}"`,
then `if not prompt: prompt = f"Name the term for: {...}"`. -/
def prompt_q_to_term (card : Card) : String :=
  let p :=
    if card.quiz_question ≠ "" then card.quiz_question
    else "Which term fits: " ++ pyStrip card.full_def
  if p = "" then "Name the term for: " ++ card.term else p

/-- The operator input consumed by one quiz item, fixing the effective
mode of that item: `qa` is a Question→Term item with the free-text
answer line; `td` is a Term→Definition item with the reveal-prompt line
and the lines offered to the yes/no self-assessment prompt. -/
inductive Script
  | qa (ans : String)
  | td (revealInput : String) (ynInputs : List String)
deriving DecidableEq

/-- Outcome of one quiz item: graded (with the answer string sent to the
logs and the answer string stored in the missed list), aborted via the
cancel token, or stuck (the yes/no prompt of `ask_yes_no` never received
a valid answer from the finite input list; the source loops forever). -/
inductive ItemOutcome
  | graded (isCorrect : Bool) (logAns : String) (missedAns : String)
  | abort
  | stuck
deriving DecidableEq

/-- `ask_yes_no`: keep reading lines until one strip-lowers to
`y`/`yes` (true) or `n`/`no` (false). -/
def askYesNo : List String → Option Bool
  | [] => none
  | s :: rest =>
    let t := pyLower (pyStrip s)
    if t = "y" ∨ t = "yes" then some true
    else if t = "n" ∨ t = "no" then some false
    else askYesNo rest

/-- One iteration of the `run_quiz` loop body for one card.
Question→Term: strip the input, break on `"q"` (case-insensitive),
otherwise grade by normalized comparison with the term; the stripped
answer is both logged and stored in the missed list.
Term→Definition: break if the reveal input strip-lowers to `"q"`,
otherwise the yes/no self-assessment decides correctness, logging the
sentinel `"(knew)"`/`"(unknown)"`, with `""` stored in the missed
list. -/
def processItem (card : Card) : Script → ItemOutcome
  | .qa input =>
    let ans := pyStrip input
    if pyLower ans = "q" then .abort
    else .graded (normalize_answer ans == normalize_answer card.term) ans ans
  | .td revealInput ynInputs =>
    if pyLower (pyStrip revealInput) = "q" then .abort
    else
      match askYesNo ynInputs with
      | some true => .graded true "(knew)" ""
      | some false => .graded false "(unknown)" ""
      | none => .stuck

/-- Aggregated state of one quiz session: `correct` and `graded`
counters, the answer records appended to the logs (term, user answer,
correctness — the timestamp, deck title and mode-name fields of the log
line are session-frame data carried unchanged from the arguments), the
missed list, and whether the loop terminated (`false` when an item got
stuck in `ask_yes_no`). -/
structure SessionResult where
  correct : Nat
  graded : Nat
  records : List (String × String × Bool)
  missed : List (Card × String)
  finished : Bool
deriving DecidableEq

/-- The `run_quiz` item loop over the selected cards, each paired with
the operator input it consumes.  An aborting item stops the loop; items
after it contribute nothing. -/
def runItems : List (Card × Script) → SessionResult
  | [] => ⟨0, 0, [], [], true⟩
  | (card, sc) :: rest =>
    match processItem card sc with
    | .abort => ⟨0, 0, [], [], true⟩
    | .stuck => ⟨0, 0, [], [], false⟩
    | .graded isCorrect logAns missedAns =>
      let r := runItems rest
      { correct := (if isCorrect then 1 else 0) + r.correct
        graded := 1 + r.graded
        records := (card.term, logAns, isCorrect) :: r.records
        missed := if isCorrect then r.missed else (card, missedAns) :: r.missed
        finished := r.finished }

/-- The percentage rendering of the summary line
`f"({(100.0*correct/total if total else 0):.1f}%)"`, modelled in exact
arithmetic: the value in tenths of a percent, printed with one decimal
digit.  This coincides with the source's float formatting whenever
`total` divides `1000 * correct` (the value then has an exact one-digit
decimal expansion, which the float pipeline reproduces); all statements
below use it only at such points. -/
def scoreString (correct total : Nat) : String :=
  let tenths := if total = 0 then 0 else (1000 * correct) / total
  toString (tenths / 10) ++ "." ++ toString (tenths % 10) ++ "%"

/-- The percentage actually reported at session end: numerator is the
session's `correct` counter, denominator is `total = len(cards)` — the
number of items selected for the session. -/
def reportedScore (items : List (Card × Script)) : String :=
  scoreString (runItems items).correct items.length

/-- Whether an item outcome is a graded one. -/
def isGradedB : ItemOutcome → Bool
  | .graded _ _ _ => true
  | _ => false

/-- Whether a script submits the cancel token at the prompt that checks
for it (the free-text answer prompt, resp. the reveal prompt). -/
def cancelsB : Script → Bool
  | .qa input => pyLower (pyStrip input) == "q"
  | .td revealInput _ => pyLower (pyStrip revealInput) == "q"

/-! ### YAML values, card coercion and deck normalization -/

/-- Parsed YAML data as `yaml.safe_load` returns it. -/
inductive YamlVal
  | null
  | bool (b : Bool)
  | int (n : Int)
  | str (s : String)
  | list (xs : List YamlVal)
  | dict (kvs : List (String × YamlVal))

/-- Python truthiness of a YAML value (`None`, `False`, `0`, `""`, `[]`
and `\x7b\x7d` are falsy). -/
def pyTruthy : YamlVal → Bool
  | .null => false
  | .bool b => b
  | .int n => n != 0
  | .str s => s != ""
  | .list xs => !xs.isEmpty
  | .dict kvs => !kvs.isEmpty

mutual

/-- Python `repr` of a parsed YAML value (string escaping inside quotes
is not modelled; no claim depends on it). -/
def pyRepr : YamlVal → String
  | .null => "None"
  | .bool true => "True"
  | .bool false => "False"
  | .int n => toString n
  | .str s => "'" ++ s ++ "'"
  | .list xs => "[" ++ String.intercalate ", " (pyReprList xs) ++ "]"
  | .dict kvs => "\x7b" ++ String.intercalate ", " (pyReprDict kvs) ++ "\x7d"

def pyReprList : List YamlVal → List String
  | [] => []
  | x :: xs => pyRepr x :: pyReprList xs

def pyReprDict : List (String × YamlVal) → List String
  | [] => []
  | (k, v) :: kvs => ("'" ++ k ++ "': " ++ pyRepr v) :: pyReprDict kvs

end

/-- Python `str()` of a parsed YAML value. -/
def pyStr : YamlVal → String
  | .str s => s
  | v => pyRepr v

/-- `d.get(k)` on a parsed mapping (keys are unique in a parsed YAML
mapping; lookup takes the first match). -/
def dictGet (kvs : List (String × YamlVal)) (k : String) : Option YamlVal :=
  (kvs.find? fun kv => kv.1 == k).map fun kv => kv.2

/-- `d.get(k, "")`. -/
def dictGetD (kvs : List (String × YamlVal)) (k : String) : YamlVal :=
  (dictGet kvs k).getD (.str "")

/-- `coerce_card`: non-mapping entries become a card whose term is the
entry's `str()` form; mapping entries take `term`/`full_def`/
`quiz_question`, each `str()`-ed and stripped, defaulting to `""`. -/
def coerce_card : YamlVal → Card
  | .dict kvs =>
    { term := pyStrip (pyStr (dictGetD kvs "term"))
      full_def := pyStrip (pyStr (dictGetD kvs "full_def"))
      quiz_question := pyStrip (pyStr (dictGetD kvs "quiz_question")) }
  | v => { term := pyStr v, full_def := "", quiz_question := "" }

/-- `os.path.basename` (POSIX): the part after the last `'/'`. -/
def baseNameList (cs : List Char) : List Char :=
  (cs.reverse.takeWhile fun c => c ≠ '/').reverse

/-- Index of the last occurrence of `c`, or `-1` (Python `str.rfind`). -/
def lastIdxOf (c : Char) (cs : List Char) : Int :=
  match cs.reverse.findIdx? fun x => x == c with
  | some i => (cs.length : Int) - 1 - i
  | none => -1

/-- The root part of `os.path.splitext`: cut at the last dot, provided
it lies after the last separator and some non-dot character stands
between them (so leading dots of the base name never start an
extension). -/
def splitextRoot (cs : List Char) : List Char :=
  let sepIdx := lastIdxOf '/' cs
  let dotIdx := lastIdxOf '.' cs
  if sepIdx < dotIdx ∧ ∃ i ∈ List.range cs.length,
      sepIdx < (i : Int) ∧ (i : Int) < dotIdx ∧ cs.getD i '.' ≠ '.'
  then cs.take dotIdx.toNat
  else cs

/-- `os.path.splitext(os.path.basename(filename))[0]` as used by
`_normalize_deck_from_data`. -/
def base_title (filename : String) : String :=
  String.mk (splitextRoot (baseNameList filename.toList))

/-- A normalized deck.  `title` keeps the parsed YAML value because the
source assigns `data.get("title") or base_title` without string
coercion. -/
structure Deck where
  title : YamlVal
  cards : List Card
  source_file : String

/-- `_normalize_deck_from_data`: `None` → empty deck; mapping with a
`cards` list → coerced cards and `title or base_title`; bare list →
coerced cards with the base title; anything else → empty deck. -/
def normalize_deck_from_data (data : YamlVal) (filename : String) : Deck :=
  let bt := base_title filename
  match data with
  | .null => ⟨.str bt, [], filename⟩
  | .dict kvs =>
    match dictGet kvs "cards" with
    | some (.list cs) =>
      let title :=
        match dictGet kvs "title" with
        | some t => if pyTruthy t then t else .str bt
        | none => .str bt
      ⟨title, cs.map coerce_card, filename⟩
    | _ => ⟨.str bt, [], filename⟩
  | .list cs => ⟨.str bt, cs.map coerce_card, filename⟩
  | _ => ⟨.str bt, [], filename⟩

/-! ### Deck loading (`load_deck`, `main` startup loop) -/

/-- What reading and parsing one deck file can yield: parsed data, a
YAML parse error (`yaml.YAMLError`), a missing file
(`FileNotFoundError`), or an exception matched by neither `except`
clause of `load_deck` — e.g. `UnicodeDecodeError` on a file with
invalid UTF-8 bytes, or `IsADirectoryError` when the path is a
directory. -/
inductive ParseOutcome
  | parsed (data : YamlVal)
  | yamlError
  | fileNotFound
  | otherError

/-- `load_deck`: normalize on success; on a YAML parse error or a
missing file print a diagnostic and return `None`.  Any other exception
is caught by neither `except` clause and propagates to the caller,
modelled as `Except.error`. -/
def load_deck (filepath : String) : ParseOutcome → Except Unit (Option Deck)
  | .parsed data => .ok (some (normalize_deck_from_data data filepath))
  | .yamlError => .ok none
  | .fileNotFound => .ok none
  | .otherError => .error ()

/-- The startup loop of `main`: load each discovered file in order,
keeping the decks that loaded and skipping the `None` results.  `main`
wraps no `try` around the loop, so an exception propagating out of
`load_deck` aborts the whole startup (`Except.error`). -/
def loadDecks (files : List (String × ParseOutcome)) : Except Unit (List Deck) :=
  match files with
  | [] => .ok []
  | f :: rest =>
    match load_deck f.1 f.2 with
    | .error e => .error e
    | .ok none => loadDecks rest
    | .ok (some d) => (loadDecks rest).map fun ds => d :: ds

/-- Whether loading one file aborts startup (an exception neither
`except` clause catches). -/
def isAbortB (r : Except Unit (Option Deck)) : Bool :=
  match r with
  | .error _ => true
  | _ => false

/-- Whether loading one file prints a diagnostic and is skipped. -/
def isSkipB (r : Except Unit (Option Deck)) : Bool :=
  match r with
  | .ok none => true
  | _ => false

/-- Number of diagnostics emitted during a startup in which no file
aborts the loop: one per file that `load_deck` skipped. -/
def diagCount (files : List (String × ParseOutcome)) : Nat :=
  (files.filter fun f => isSkipB (load_deck f.1 f.2)).length

/-! ### Audit logging (`log_answer`) -/

/-- The two audit files. -/
inductive LogFile
  | answers
  | stamp
deriving DecidableEq

/-- The write attempts of `log_answer`, with failure injection: the
plain write (`answers.log`) is a bare `with open ... write`; if it
raises, the function propagates at once and the shadow write
(`stamp.log`) is never reached; otherwise the shadow write is attempted,
and its own failure propagates after the attempt.  Returns the attempted
files in order and whether the call completed without an exception. -/
def log_answer_attempts (plainFails stampFails : Bool) : List LogFile × Bool :=
  if plainFails then ([LogFile.answers], false)
  else if stampFails then ([LogFile.answers, LogFile.stamp], false)
  else ([LogFile.answers, LogFile.stamp], true)

/-! ### Numeric prompts (`ask_int`, `choose_count`) -/

/-- Digits possibly separated by single underscores (Python `int()`
accepts `"1_0"` but not `"_1"`, `"1_"` or `"1__0"`); `acc` carries the
value parsed so far. -/
def digitsCore : List Char → Nat → Option Nat
  | [], acc => some acc
  | '_' :: rest, acc =>
    match rest with
    | c :: rest2 =>
      if c.isDigit then digitsCore rest2 (acc * 10 + (c.toNat - 48)) else none
    | [] => none
  | c :: rest, acc =>
    if c.isDigit then digitsCore rest (acc * 10 + (c.toNat - 48)) else none

/-- An unsigned decimal literal: a digit followed by `digitsCore`. -/
def parseUnsigned : List Char → Option Nat
  | [] => none
  | c :: rest =>
    if c.isDigit then digitsCore rest (c.toNat - 48) else none

/-- Python `int(s)` on ASCII text: strip, optional sign, decimal digits
with optional single underscores; `none` models `ValueError`. -/
def pyInt (s : String) : Option Int :=
  match (pyStrip s).toList with
  | '+' :: rest => (parseUnsigned rest).map Int.ofNat
  | '-' :: rest => (parseUnsigned rest).map fun n => -(n : Int)
  | cs => (parseUnsigned cs).map Int.ofNat

/-- `ask_int`: keep reading lines until one parses as an integer within
`[lo, hi]`; `none` when the finite input list runs out (the source would
keep prompting). -/
def ask_int (inputs : List String) (lo hi : Int) : Option Int :=
  match inputs with
  | [] => none
  | s :: rest =>
    match pyInt (pyStrip s) with
    | some v => if lo ≤ v ∧ v ≤ hi then some v else ask_int rest lo hi
    | none => ask_int rest lo hi

/-- `choose_count`: read one line; blank → all cards; a number → clamped
into `[1, max_n]` via `max(1, min(max_n, n))`; unparsable → all cards.
No loop: exactly one line is consumed. -/
def choose_count (max_n : Int) (input : String) : Int :=
  let s := pyStrip input
  if s = "" then max_n
  else
    match pyInt s with
    | some n => max 1 (min max_n n)
    | none => max_n

/-! ## Theorems -/

/-! ### Obfuscation transform -/

theorem expand_length (s pad : List Nat) (h : pad.length = s.length) :
    (expand s pad).length = 2 * s.length := by
  induction s generalizing pad with
  | nil => simp [expand]
  | cons c cs ih =>
    cases pad with
    | nil => simp at h
    | cons p ps =>
      simp only [List.length_cons, Nat.succ.injEq] at h
      simp [expand, ih ps h]
      omega

theorem expand_mem {a : Nat} {s pad : List Nat} (h : a ∈ expand s pad) :
    a ∈ s ∨ a ∈ pad := by
  induction s generalizing pad with
  | nil => simp [expand] at h
  | cons c cs ih =>
    cases pad with
    | nil => simp [expand] at h
    | cons p ps =>
      simp only [expand, List.mem_cons] at h
      rcases h with h | h | h
      · exact Or.inl (by simp [h])
      · exact Or.inr (by simp [h])
      · rcases ih h with h' | h'
        · exact Or.inl (List.mem_cons_of_mem _ h')
        · exact Or.inr (List.mem_cons_of_mem _ h')

/-- C1 counterexample: for input `"A"` (code 65) with padding draw `'a'`
(code 97), the output is `[72, 104]`, and the character 104 does not equal
`(c + 7) % 255` for any character `c` occurring in the input. -/
theorem c1_padding_char_not_from_input :
    obfuscate_line [65] [97] = [72, 104] ∧
    104 ∈ obfuscate_line [65] [97] ∧
    ¬ ∃ c ∈ ([65] : List Nat), (c + 7) % 255 = 104 := by
  decide

/-- C1 (amended): for every input and every sequence of padding draws that
are lowercase letters (codes 97..122, as `random.choice(ascii_lowercase)`
guarantees), the output of `obfuscate_line` has length exactly twice the
input length, and every output character equals `(c + 7) % 255` where `c`
is either a character occurring in the input or a lowercase letter. -/
theorem c1_obfuscate_length_and_charset (s pad : List Nat)
    (hlen : pad.length = s.length)
    (hpad : ∀ p ∈ pad, 97 ≤ p ∧ p ≤ 122) :
    (obfuscate_line s pad).length = 2 * s.length ∧
    ∀ x ∈ obfuscate_line s pad,
      ∃ c, (c ∈ s ∨ (97 ≤ c ∧ c ≤ 122)) ∧ x = (c + 7) % 255 := by
  constructor
  · simpa [obfuscate_line] using expand_length s pad hlen
  · intro x hx
    simp only [obfuscate_line, List.mem_map] at hx
    obtain ⟨code, hcode, rfl⟩ := hx
    rcases expand_mem hcode with h | h
    · exact ⟨code, Or.inl h, rfl⟩
    · exact ⟨code, Or.inr (hpad code h), rfl⟩

theorem c1_obfuscate_length_and_charset_witness :
    (obfuscate_line [65, 66] [97, 98]).length = 2 * ([65, 66] : List Nat).length ∧
    ∀ x ∈ obfuscate_line [65, 66] [97, 98],
      ∃ c, (c ∈ ([65, 66] : List Nat) ∨ (97 ≤ c ∧ c ≤ 122)) ∧ x = (c + 7) % 255 :=
  c1_obfuscate_length_and_charset [65, 66] [97, 98] (by decide) (by decide)

/-- C10 counterexample: for the one-character input with code point 255
(`'ÿ'`), decoding the even positions of the obfuscated output yields
`[0]`, not the original input: the shift modulo 255 loses information for
code points ≥ 255. -/
theorem c10_decode_fails_at_255 :
    obfuscate_line [255] [97] = [7, 104] ∧
    decode_evens (obfuscate_line [255] [97]) = [0] ∧
    decode_evens (obfuscate_line [255] [97]) ≠ [255] := by
  decide

/-- C10 (amended): for every input string all of whose code points are
below 255, taking the even-index characters of `obfuscate_line` and
mapping each through `(c - 7) mod 255` recovers the input exactly,
regardless of the random padding draws. -/
theorem c10_decode_evens_recovers_input (s pad : List Nat)
    (hlen : pad.length = s.length)
    (hlt : ∀ c ∈ s, c < 255) :
    decode_evens (obfuscate_line s pad) = s := by
  induction s generalizing pad with
  | nil =>
    cases pad with
    | nil => rfl
    | cons p ps => simp at hlen
  | cons c cs ih =>
    cases pad with
    | nil => simp at hlen
    | cons p ps =>
      simp only [List.length_cons, Nat.succ.injEq] at hlen
      have hc : c < 255 := hlt c (by simp)
      have hcs : ∀ a ∈ cs, a < 255 := fun a ha => hlt a (List.mem_cons_of_mem _ ha)
      have step : decode_evens (obfuscate_line (c :: cs) (p :: ps))
          = ((c + 7) % 255 + 248) % 255 :: decode_evens (obfuscate_line cs ps) := by
        simp [obfuscate_line, expand, decode_evens, evenIdx]
      rw [step, ih ps hlen hcs]
      have : ((c + 7) % 255 + 248) % 255 = c := by omega
      rw [this]

theorem c10_decode_evens_recovers_input_witness :
    decode_evens (obfuscate_line [72, 105] [97, 98]) = [72, 105] :=
  c10_decode_evens_recovers_input [72, 105] [97, 98] (by decide) (by decide)

/-! ### String primitives -/

theorem wordsAux_snoc_ws {c : Char} (hc : pyIsSpace c = true) :
    ∀ (cs : List Char) (acc : List Char),
      wordsAux (cs ++ [c]) acc = wordsAux cs acc := by
  intro cs
  induction cs with
  | nil =>
    intro acc
    by_cases h : acc = []
    · simp [wordsAux, h, hc]
    · simp [wordsAux, h, hc]
  | cons x xs ih =>
    intro acc
    by_cases hx : pyIsSpace x
    · by_cases h : acc = [] <;> simp [wordsAux, hx, h, ih]
    · simp [wordsAux, hx, ih]

theorem wordsAux_append_ws_suffix (suf : List Char)
    (hsuf : ∀ c ∈ suf, pyIsSpace c = true) :
    ∀ (cs : List Char) (acc : List Char),
      wordsAux (cs ++ suf) acc = wordsAux cs acc := by
  induction suf with
  | nil => intro cs acc; simp
  | cons c rest ih =>
    intro cs acc
    have hc : pyIsSpace c = true := hsuf c (by simp)
    have hrest : ∀ a ∈ rest, pyIsSpace a = true :=
      fun a ha => hsuf a (List.mem_cons_of_mem _ ha)
    have : cs ++ c :: rest = (cs ++ [c]) ++ rest := by simp
    rw [this, ih hrest (cs ++ [c]) acc, wordsAux_snoc_ws hc]

theorem wordsAux_dropWhile_ws (cs : List Char) :
    wordsAux (cs.dropWhile pyIsSpace) [] = wordsAux cs [] := by
  induction cs with
  | nil => rfl
  | cons c rest ih =>
    by_cases hc : pyIsSpace c
    · rw [List.dropWhile_cons_of_pos (by simpa using hc)]
      rw [ih]
      simp [wordsAux, hc]
    · rw [List.dropWhile_cons_of_neg (by simpa using hc)]

theorem wordsAux_dropTrailingWs (cs : List Char) :
    wordsAux (dropTrailingWs cs) [] = wordsAux cs [] := by
  have hdecomp : cs = dropTrailingWs cs ++ (cs.reverse.takeWhile pyIsSpace).reverse := by
    unfold dropTrailingWs
    rw [← List.reverse_append, List.takeWhile_append_dropWhile]
    · simp
  have hsuf : ∀ c ∈ (cs.reverse.takeWhile pyIsSpace).reverse, pyIsSpace c = true := by
    intro c hc
    rw [List.mem_reverse] at hc
    exact List.mem_takeWhile_imp hc
  conv_rhs => rw [hdecomp]
  rw [wordsAux_append_ws_suffix _ hsuf]

theorem char_toNat_ofNat {n : Nat} (h : n < 55296) : (Char.ofNat n).toNat = n := by
  have hv : n.isValidChar := Or.inl h
  simp only [Char.ofNat, hv, dif_pos, Char.ofNatAux, Char.toNat]
  rfl

theorem pyIsSpace_false_of_33_le {c : Char} (h : 33 ≤ c.toNat) :
    pyIsSpace c = false := by
  simp only [pyIsSpace, Bool.or_eq_false_iff, decide_eq_false_iff_not]
  refine ⟨⟨⟨⟨⟨?_, ?_⟩, ?_⟩, ?_⟩, ?_⟩, ?_⟩ <;>
    · intro he
      exact absurd (he ▸ h) (by decide)

theorem pyIsSpace_lowerChar (c : Char) : pyIsSpace (lowerChar c) = pyIsSpace c := by
  unfold lowerChar
  by_cases h : 65 ≤ c.toNat ∧ c.toNat ≤ 90
  · rw [if_pos h]
    have h1 : (Char.ofNat (c.toNat + 32)).toNat = c.toNat + 32 :=
      char_toNat_ofNat (by omega)
    rw [pyIsSpace_false_of_33_le (by omega),
      pyIsSpace_false_of_33_le (by omega)]
  · rw [if_neg h]

theorem map_lowerChar_dropWhile (l : List Char) :
    (l.dropWhile pyIsSpace).map lowerChar = (l.map lowerChar).dropWhile pyIsSpace := by
  rw [List.dropWhile_map]
  have : pyIsSpace ∘ lowerChar = pyIsSpace := funext pyIsSpace_lowerChar
  rw [this]

theorem map_lowerChar_dropTrailingWs (l : List Char) :
    (dropTrailingWs l).map lowerChar = dropTrailingWs (l.map lowerChar) := by
  unfold dropTrailingWs
  calc (l.reverse.dropWhile pyIsSpace).reverse.map lowerChar
      = ((l.reverse.dropWhile pyIsSpace).map lowerChar).reverse := by
        rw [List.map_reverse]
    _ = ((l.reverse.map lowerChar).dropWhile pyIsSpace).reverse := by
        rw [map_lowerChar_dropWhile]
    _ = ((l.map lowerChar).reverse.dropWhile pyIsSpace).reverse := by
        rw [List.map_reverse]

/-- Stripping the ends does not change the word decomposition, hence does
not change the normalized form.  (The quiz loop strips the raw input
before comparing; this shows the comparison agrees with normalizing the
raw input directly.) -/
theorem normalize_answer_pyStrip (s : String) :
    normalize_answer (pyStrip s) = normalize_answer s := by
  unfold normalize_answer
  congr 1
  congr 1
  show wordsAux (((pyStrip s).toList).map lowerChar) []
      = wordsAux ((s.toList).map lowerChar) []
  have hstrip : (pyStrip s).toList = dropTrailingWs (s.toList.dropWhile pyIsSpace) := rfl
  rw [hstrip, map_lowerChar_dropTrailingWs, wordsAux_dropTrailingWs,
    map_lowerChar_dropWhile, wordsAux_dropWhile_ws]

/-! ### Quiz session -/

theorem processItem_abort_of_cancels {sc : Script} (hc : cancelsB sc = true)
    (card : Card) : processItem card sc = .abort := by
  cases sc with
  | qa input =>
    have h : pyLower (pyStrip input) = "q" := by
      simpa [cancelsB] using hc
    simp [processItem, h]
  | td revealInput ynInputs =>
    have h : pyLower (pyStrip revealInput) = "q" := by
      simpa [cancelsB] using hc
    simp [processItem, h]

theorem runItems_append_cancel {sc : Script} (hc : cancelsB sc = true)
    (card : Card) (pre rest : List (Card × Script)) :
    runItems (pre ++ (card, sc) :: rest) = runItems pre := by
  induction pre with
  | nil =>
    simp only [List.nil_append]
    have ha := processItem_abort_of_cancels hc card
    simp [runItems, ha]
  | cons p pre ih =>
    obtain ⟨c0, s0⟩ := p
    simp only [List.cons_append]
    rw [runItems, runItems]
    cases processItem c0 s0 with
    | abort => rfl
    | stuck => rfl
    | graded isCorrect la ma => rw [ih]

theorem runItems_all_graded (items : List (Card × Script))
    (hall : ∀ p ∈ items, isGradedB (processItem p.1 p.2) = true) :
    (runItems items).graded = items.length ∧
    (runItems items).records.length = items.length := by
  induction items with
  | nil => exact ⟨rfl, rfl⟩
  | cons p rest ih =>
    obtain ⟨c0, s0⟩ := p
    have h0 : isGradedB (processItem c0 s0) = true := hall (c0, s0) (by simp)
    have hrest : ∀ q ∈ rest, isGradedB (processItem q.1 q.2) = true :=
      fun q hq => hall q (List.mem_cons_of_mem _ hq)
    obtain ⟨ihg, ihr⟩ := ih hrest
    rw [runItems]
    cases hp : processItem c0 s0 with
    | abort => rw [hp] at h0; simp [isGradedB] at h0
    | stuck => rw [hp] at h0; simp [isGradedB] at h0
    | graded isCorrect la ma =>
      constructor
      · simp [ihg]; omega
      · simp [ihr]

theorem runItems_correct_le_graded (items : List (Card × Script)) :
    (runItems items).correct ≤ (runItems items).graded := by
  induction items with
  | nil => exact Nat.le_refl 0
  | cons p rest ih =>
    obtain ⟨c0, s0⟩ := p
    rw [runItems]
    cases processItem c0 s0 with
    | abort => exact Nat.le_refl 0
    | stuck => exact Nat.le_refl 0
    | graded isCorrect la ma =>
      cases isCorrect <;> simp <;> omega

/-- C2 counterexample: a two-item session whose second item aborts via
the cancel token.  One item was graded and it was correct, so the claim
demands `"100.0%"`; the code reports `correct / len(cards)` and prints
`"50.0%"`. -/
theorem c2_score_denominator_counterexample :
    (runItems [(⟨"alpha", "", ""⟩, Script.qa "alpha"),
               (⟨"beta", "", ""⟩, Script.qa "q")]).graded = 1 ∧
    (runItems [(⟨"alpha", "", ""⟩, Script.qa "alpha"),
               (⟨"beta", "", ""⟩, Script.qa "q")]).correct = 1 ∧
    reportedScore [(⟨"alpha", "", ""⟩, Script.qa "alpha"),
                   (⟨"beta", "", ""⟩, Script.qa "q")] = "50.0%" ∧
    scoreString 1 1 = "100.0%" ∧
    ("50.0%" : String) ≠ "100.0%" := by
  decide

/-- C2 (amended): the reported percentage is `correct / N × 100` with
`N = len(cards)`, the number of items selected for the session.  When the
session ends by exhaustion (every item graded, no abort), `N` equals the
graded count, so the claim's formula holds there: in particular a session
of 5 graded items with 3 correct reports `"60.0%"`.  When nothing was
answered correctly — in particular when zero items were graded — the
report is `"0.0%"` and no division fault occurs. -/
theorem c2_reported_percentage (items : List (Card × Script))
    (hall : ∀ p ∈ items, isGradedB (processItem p.1 p.2) = true) :
    (runItems items).graded = items.length ∧
    ((runItems items).graded = 5 → (runItems items).correct = 3 →
      reportedScore items = "60.0%") ∧
    (∀ its : List (Card × Script), (runItems its).graded = 0 →
      reportedScore its = "0.0%") := by
  obtain ⟨hg, _⟩ := runItems_all_graded items hall
  refine ⟨hg, ?_, ?_⟩
  · intro h5 h3
    unfold reportedScore
    rw [h3, ← hg, h5]
    decide
  · intro its h0
    have hc : (runItems its).correct = 0 :=
      Nat.le_zero.mp (h0 ▸ runItems_correct_le_graded its)
    unfold reportedScore scoreString
    rw [hc]
    simp
    decide

theorem c2_reported_percentage_witness :
    (runItems [(⟨"a", "", ""⟩, Script.qa "a"), (⟨"b", "", ""⟩, Script.qa "b"),
               (⟨"c", "", ""⟩, Script.qa "c"), (⟨"d", "", ""⟩, Script.qa "x"),
               (⟨"e", "", ""⟩, Script.qa "y")]).graded =
      ([(⟨"a", "", ""⟩, Script.qa "a"), (⟨"b", "", ""⟩, Script.qa "b"),
        (⟨"c", "", ""⟩, Script.qa "c"), (⟨"d", "", ""⟩, Script.qa "x"),
        (⟨"e", "", ""⟩, Script.qa "y")] : List (Card × Script)).length ∧
    ((runItems [(⟨"a", "", ""⟩, Script.qa "a"), (⟨"b", "", ""⟩, Script.qa "b"),
               (⟨"c", "", ""⟩, Script.qa "c"), (⟨"d", "", ""⟩, Script.qa "x"),
               (⟨"e", "", ""⟩, Script.qa "y")]).graded = 5 →
      (runItems [(⟨"a", "", ""⟩, Script.qa "a"), (⟨"b", "", ""⟩, Script.qa "b"),
               (⟨"c", "", ""⟩, Script.qa "c"), (⟨"d", "", ""⟩, Script.qa "x"),
               (⟨"e", "", ""⟩, Script.qa "y")]).correct = 3 →
      reportedScore [(⟨"a", "", ""⟩, Script.qa "a"), (⟨"b", "", ""⟩, Script.qa "b"),
               (⟨"c", "", ""⟩, Script.qa "c"), (⟨"d", "", ""⟩, Script.qa "x"),
               (⟨"e", "", ""⟩, Script.qa "y")] = "60.0%") ∧
    (∀ its : List (Card × Script), (runItems its).graded = 0 →
      reportedScore its = "0.0%") :=
  c2_reported_percentage
    [(⟨"a", "", ""⟩, Script.qa "a"), (⟨"b", "", ""⟩, Script.qa "b"),
     (⟨"c", "", ""⟩, Script.qa "c"), (⟨"d", "", ""⟩, Script.qa "x"),
     (⟨"e", "", ""⟩, Script.qa "y")] (by decide)

/-- C3 counterexample: a Term→Definition item during which the learner
submits the exact cancel token `"q"` — at the yes/no self-assessment
prompt.  The session does not abort: `ask_yes_no` re-prompts, the next
line grades the item, and an answer record is created for it. -/
theorem c3_cancel_at_yes_no_prompt_counterexample :
    (runItems [(⟨"cat", "", ""⟩, Script.td "" ["q", "y"])]).graded = 1 ∧
    (runItems [(⟨"cat", "", ""⟩, Script.td "" ["q", "y"])]).records =
      [("cat", "(knew)", true)] ∧
    (runItems [(⟨"cat", "", ""⟩, Script.td "" ["q", "y"])]).records ≠ [] := by
  decide

/-- C3 (amended): submitting the cancel token at the prompts that check
for it — the free-text answer prompt of a Question→Term item and the
reveal prompt of a Term→Definition item — aborts the session
immediately: the run equals the run of the preceding items alone, so no
record is created for the aborting item, and when the preceding items
were all graded, exactly that many items are graded and logged.  (At the
yes/no self-assessment prompt the token is rejected and re-prompted
instead.)  In particular, cancelling on item 2 of a 5-item session
leaves exactly 1 item graded and logged. -/
theorem c3_cancel_aborts_session
    (pre : List (Card × Script)) (card : Card) (sc : Script)
    (rest : List (Card × Script))
    (hc : cancelsB sc = true)
    (hall : ∀ p ∈ pre, isGradedB (processItem p.1 p.2) = true) :
    runItems (pre ++ (card, sc) :: rest) = runItems pre ∧
    (runItems (pre ++ (card, sc) :: rest)).records.length = pre.length ∧
    (runItems (pre ++ (card, sc) :: rest)).graded = pre.length := by
  have heq := runItems_append_cancel hc card pre rest
  obtain ⟨hg, hr⟩ := runItems_all_graded pre hall
  exact ⟨heq, by rw [heq, hr], by rw [heq, hg]⟩

theorem c3_cancel_aborts_session_witness :
    runItems ([(⟨"alpha", "", ""⟩, Script.qa "wrong")] ++
        (⟨"beta", "", ""⟩, Script.qa "q") ::
        [(⟨"c", "", ""⟩, Script.qa "c"), (⟨"d", "", ""⟩, Script.qa "d"),
         (⟨"e", "", ""⟩, Script.qa "e")]) =
      runItems [(⟨"alpha", "", ""⟩, Script.qa "wrong")] ∧
    (runItems ([(⟨"alpha", "", ""⟩, Script.qa "wrong")] ++
        (⟨"beta", "", ""⟩, Script.qa "q") ::
        [(⟨"c", "", ""⟩, Script.qa "c"), (⟨"d", "", ""⟩, Script.qa "d"),
         (⟨"e", "", ""⟩, Script.qa "e")])).records.length =
      ([(⟨"alpha", "", ""⟩, Script.qa "wrong")] : List (Card × Script)).length ∧
    (runItems ([(⟨"alpha", "", ""⟩, Script.qa "wrong")] ++
        (⟨"beta", "", ""⟩, Script.qa "q") ::
        [(⟨"c", "", ""⟩, Script.qa "c"), (⟨"d", "", ""⟩, Script.qa "d"),
         (⟨"e", "", ""⟩, Script.qa "e")])).graded =
      ([(⟨"alpha", "", ""⟩, Script.qa "wrong")] : List (Card × Script)).length :=
  c3_cancel_aborts_session [(⟨"alpha", "", ""⟩, Script.qa "wrong")]
    ⟨"beta", "", ""⟩ (Script.qa "q")
    [(⟨"c", "", ""⟩, Script.qa "c"), (⟨"d", "", ""⟩, Script.qa "d"),
     (⟨"e", "", ""⟩, Script.qa "e")]
    (by decide) (by decide)

/-- C4: a Question→Term free-text answer is graded correct exactly when
its normalized form equals the normalized card term, where normalization
lower-cases and collapses whitespace runs (trimming the ends); and
`normalize_answer "  Right   Angle "` equals
`normalize_answer "right angle"`. -/
theorem c4_grading_is_normalized_equality
    (card : Card) (input : String) (b : Bool) (la ma : String)
    (h : processItem card (.qa input) = .graded b la ma) :
    (b = true ↔ normalize_answer input = normalize_answer card.term) ∧
    normalize_answer "  Right   Angle " = normalize_answer "right angle" := by
  refine ⟨?_, by decide⟩
  by_cases hq : pyLower (pyStrip input) = "q"
  · simp [processItem, hq] at h
  · simp only [processItem, hq, if_false, ItemOutcome.graded.injEq] at h
    rw [← h.1, beq_iff_eq, normalize_answer_pyStrip]

theorem c4_grading_is_normalized_equality_witness :
    (true = true ↔
      normalize_answer "  Right   Angle " = normalize_answer "right angle") ∧
    normalize_answer "  Right   Angle " = normalize_answer "right angle" :=
  c4_grading_is_normalized_equality ⟨"right angle", "", ""⟩ "  Right   Angle "
    true "Right   Angle" "Right   Angle" (by decide)

/-- C7: the prompt of a Question→Term item is the card's quiz question
when non-empty and otherwise the synthesized `"Which term fits: ..."`
fallback — unconditionally.  The third tier promised by the claim (a
fallback referencing the term itself when the definition is also
unavailable) is unreachable: the synthesized fallback is non-empty even
when the definition is empty, so `if not prompt` never fires, and a card
with empty question and empty definition is prompted as
`"Which term fits: "` rather than `"Name the term for: cat"`. -/
theorem c7_prompt_term_fallback_unreachable :
    (∀ card : Card, prompt_q_to_term card =
      if card.quiz_question = "" then "Which term fits: " ++ pyStrip card.full_def
      else card.quiz_question) ∧
    prompt_q_to_term ⟨"cat", "", ""⟩ = "Which term fits: " ∧
    prompt_q_to_term ⟨"cat", "", ""⟩ ≠ "Name the term for: cat" := by
  refine ⟨?_, by decide, by decide⟩
  intro card
  by_cases hq : card.quiz_question = ""
  · have hne : ("Which term fits: " ++ pyStrip card.full_def) ≠ "" := by
      intro h
      have := congrArg String.length h
      simp at this
      exact absurd this.1 (by decide)
    simp [prompt_q_to_term, hq, hne]
  · simp [prompt_q_to_term, hq]

/-! ### Deck normalization and loading -/

/-- C5: deck normalization by shape.  A mapping with a `cards` list
yields the coerced entries, titled by the mapping's title string with
fallback to the file base name when the title is absent or empty; a bare
list yields the coerced entries titled by the file base name; every
other parsed shape yields a zero-card deck titled by the file base name.
(Normalization and coercion are total functions — no shape raises.) -/
theorem c5_normalize_deck_shapes
    (filename : String) (kvs : List (String × YamlVal)) (cs : List YamlVal)
    (data : YamlVal) :
    (dictGet kvs "cards" = some (.list cs) → dictGet kvs "title" = none →
      normalize_deck_from_data (.dict kvs) filename =
        ⟨.str (base_title filename), cs.map coerce_card, filename⟩) ∧
    (dictGet kvs "cards" = some (.list cs) → ∀ t : String,
      dictGet kvs "title" = some (.str t) →
      normalize_deck_from_data (.dict kvs) filename =
        ⟨if t = "" then .str (base_title filename) else .str t,
         cs.map coerce_card, filename⟩) ∧
    (normalize_deck_from_data (.list cs) filename =
      ⟨.str (base_title filename), cs.map coerce_card, filename⟩) ∧
    ((∀ kvs2, data = .dict kvs2 → ∀ l, dictGet kvs2 "cards" ≠ some (.list l)) →
      (∀ l, data ≠ .list l) →
      normalize_deck_from_data data filename =
        ⟨.str (base_title filename), [], filename⟩) := by
  refine ⟨?_, ?_, rfl, ?_⟩
  · intro h1 h2
    simp [normalize_deck_from_data, h1, h2]
  · intro h1 t h2
    by_cases ht : t = ""
    · simp [normalize_deck_from_data, h1, h2, ht, pyTruthy]
    · simp [normalize_deck_from_data, h1, h2, ht, pyTruthy]
  · intro hd hl
    cases data with
    | null => rfl
    | bool b => rfl
    | int n => rfl
    | str s => rfl
    | list l => exact absurd rfl (hl l)
    | dict kvs2 =>
      have h := hd kvs2 rfl
      cases hgc : dictGet kvs2 "cards" with
      | none => simp [normalize_deck_from_data, hgc]
      | some v =>
        cases v with
        | list l => exact absurd hgc (h l)
        | null => simp [normalize_deck_from_data, hgc]
        | bool b => simp [normalize_deck_from_data, hgc]
        | int n => simp [normalize_deck_from_data, hgc]
        | str s => simp [normalize_deck_from_data, hgc]
        | dict kvs3 => simp [normalize_deck_from_data, hgc]

theorem c5_normalize_deck_shapes_witness :
    normalize_deck_from_data
        (.dict [("title", YamlVal.str ""), ("cards", YamlVal.list [YamlVal.str "x"])])
        "data/geo.yml" =
      ⟨YamlVal.str (base_title "data/geo.yml"), [⟨"x", "", ""⟩], "data/geo.yml"⟩ ∧
    normalize_deck_from_data (.int 3) "data/geo.yml" =
      ⟨YamlVal.str (base_title "data/geo.yml"), [], "data/geo.yml"⟩ := by
  constructor
  · exact (c5_normalize_deck_shapes "data/geo.yml"
      [("title", YamlVal.str ""), ("cards", YamlVal.list [YamlVal.str "x"])]
      [YamlVal.str "x"] (.int 3)).2.1 rfl "" rfl
  · exact (c5_normalize_deck_shapes "data/geo.yml"
      [("title", YamlVal.str ""), ("cards", YamlVal.list [YamlVal.str "x"])]
      [YamlVal.str "x"] (.int 3)).2.2.2
      (fun kvs2 h => by cases h) (fun l h => by cases h)

theorem loadDecks_ok_of_no_abort (files : List (String × ParseOutcome))
    (hok : ∀ g ∈ files, isAbortB (load_deck g.1 g.2) = false) :
    ∃ decks, loadDecks files = Except.ok decks ∧
      decks.length + diagCount files = files.length := by
  induction files with
  | nil => exact ⟨[], rfl, rfl⟩
  | cons g gs ih =>
    have hg0 : isAbortB (load_deck g.1 g.2) = false := hok g (by simp)
    have hgs : ∀ q ∈ gs, isAbortB (load_deck q.1 q.2) = false :=
      fun q hq => hok q (List.mem_cons_of_mem _ hq)
    obtain ⟨ds, hds, hlen⟩ := ih hgs
    rw [loadDecks]
    cases hg : load_deck g.1 g.2 with
    | error e => rw [hg] at hg0; simp [isAbortB] at hg0
    | ok o =>
      cases o with
      | none =>
        refine ⟨ds, hds, ?_⟩
        unfold diagCount
        rw [List.filter_cons_of_pos (by simp [isSkipB, hg])]
        unfold diagCount at hlen
        simp only [List.length_cons]
        omega
      | some d =>
        refine ⟨d :: ds, by rw [hds]; rfl, ?_⟩
        unfold diagCount
        rw [List.filter_cons_of_neg (by simp [isSkipB, hg])]
        unfold diagCount at hlen
        simp only [List.length_cons]
        omega

/-- C9 counterexample: one file among three whose load raises an
exception matched by neither `except` clause — e.g. a `.yml` file with
invalid UTF-8 bytes (`UnicodeDecodeError`) — propagates out of
`load_deck` and aborts the whole startup loop, so a single bad file
does abort startup.  By contrast, the same position occupied by a
YAML-syntax failure is skipped and the other two decks load. -/
theorem c9_uncaught_error_aborts_startup :
    loadDecks [("a.yml", ParseOutcome.parsed (.list [])),
               ("weird.yml", ParseOutcome.otherError),
               ("c.yml", ParseOutcome.parsed .null)] = Except.error () ∧
    loadDecks [("a.yml", ParseOutcome.parsed (.list [])),
               ("bad.yml", ParseOutcome.yamlError),
               ("c.yml", ParseOutcome.parsed .null)] =
      Except.ok [normalize_deck_from_data (.list []) "a.yml",
                 normalize_deck_from_data .null "c.yml"] :=
  ⟨rfl, rfl⟩

/-- C9 (amended): a YAML parse failure (or a missing file) on an
individual file is recoverable — that file is skipped with one
diagnostic and loading continues with the remaining files — and when no
file raises an exception outside the two `except` clauses, startup
never aborts: decks loaded plus diagnostics equals the file count, so
one such unparsable file among three files yields exactly two decks and
one diagnostic.  A file failing with any other exception (invalid
UTF-8, a directory path, ...) propagates and aborts startup. -/
theorem c9_recoverable_failure_skipped
    (files pre post : List (String × ParseOutcome))
    (f : String × ParseOutcome)
    (hskip : load_deck f.1 f.2 = Except.ok none)
    (hok : ∀ g ∈ files, isAbortB (load_deck g.1 g.2) = false)
    (h3 : files.length = 3) (h1 : diagCount files = 1) :
    loadDecks (pre ++ f :: post) = loadDecks (pre ++ post) ∧
    ∃ decks, loadDecks files = Except.ok decks ∧
      decks.length + diagCount files = files.length ∧ decks.length = 2 := by
  constructor
  · induction pre with
    | nil =>
      simp only [List.nil_append]
      rw [loadDecks, hskip]
    | cons g pre ih =>
      simp only [List.cons_append]
      rw [loadDecks, loadDecks]
      cases load_deck g.1 g.2 with
      | error e => rfl
      | ok o =>
        cases o with
        | none => exact ih
        | some d => rw [ih]
  · obtain ⟨ds, hds, hlen⟩ := loadDecks_ok_of_no_abort files hok
    exact ⟨ds, hds, hlen, by omega⟩

theorem c9_recoverable_failure_skipped_witness :
    loadDecks ([("a.yml", ParseOutcome.parsed (.list []))] ++
        ("bad.yml", ParseOutcome.yamlError) ::
        [("c.yml", ParseOutcome.parsed .null)]) =
      loadDecks ([("a.yml", ParseOutcome.parsed (.list []))] ++
        [("c.yml", ParseOutcome.parsed .null)]) ∧
    ∃ decks,
      loadDecks [("a.yml", ParseOutcome.parsed (.list [])),
                 ("bad.yml", ParseOutcome.yamlError),
                 ("c.yml", ParseOutcome.parsed .null)] = Except.ok decks ∧
      decks.length +
        diagCount [("a.yml", ParseOutcome.parsed (.list [])),
                   ("bad.yml", ParseOutcome.yamlError),
                   ("c.yml", ParseOutcome.parsed .null)] =
        ([("a.yml", ParseOutcome.parsed (.list [])),
          ("bad.yml", ParseOutcome.yamlError),
          ("c.yml", ParseOutcome.parsed .null)] :
            List (String × ParseOutcome)).length ∧
      decks.length = 2 :=
  c9_recoverable_failure_skipped
    [("a.yml", ParseOutcome.parsed (.list [])),
     ("bad.yml", ParseOutcome.yamlError),
     ("c.yml", ParseOutcome.parsed .null)]
    [("a.yml", ParseOutcome.parsed (.list []))]
    [("c.yml", ParseOutcome.parsed .null)]
    ("bad.yml", ParseOutcome.yamlError)
    rfl (by decide) rfl rfl

/-! ### Audit logging -/

/-- C8 counterexample: when the plain-log write fails, the shadow-log
write is never attempted — the exception propagates out of `log_answer`
between the two `with open` blocks, so a failure on the first log does
suppress the attempt on the second. -/
theorem c8_plain_failure_suppresses_shadow :
    (log_answer_attempts true false).1 = [LogFile.answers] ∧
    LogFile.stamp ∉ (log_answer_attempts true false).1 := by
  decide

/-- C8 (amended): the plain-log write is always attempted (first); after
a successful plain write the shadow-log write is attempted regardless of
whether the shadow write itself fails — so a failure of the *second*
write never suppresses the first, but a failure of the *first* write
suppresses the second. -/
theorem c8_log_attempt_order (plainFails stampFails : Bool) :
    (log_answer_attempts plainFails stampFails).1 =
      (if plainFails then [LogFile.answers]
       else [LogFile.answers, LogFile.stamp]) ∧
    LogFile.stamp ∈ (log_answer_attempts false stampFails).1 ∧
    LogFile.answers ∈ (log_answer_attempts plainFails stampFails).1 := by
  cases plainFails <;> cases stampFails <;> decide

/-! ### Numeric prompts -/

/-- C6 counterexample: the card-count prompt does not re-prompt.  On the
single non-numeric line `"abc"` — no number within bounds was supplied —
`choose_count` immediately returns the full count instead of looping. -/
theorem c6_choose_count_no_reprompt :
    choose_count 5 "abc" = 5 ∧ pyInt "abc" = none ∧
    choose_count 5 "99" = 5 ∧ choose_count 5 "0" = 1 := by
  decide

/-- C6 (amended): the menu prompts (`ask_int`) re-prompt until a number
within `[lo, hi]` is supplied and return only such a value, skipping
non-numeric input; the card-count prompt reads a single line and always
returns a value within `[1, max_n]` — blank and non-numeric lines map to
`max_n`, numeric lines are clamped into bounds — so neither prompt can
crash on non-numeric input. -/
theorem c6_numeric_prompts_in_bounds
    (inputs : List String) (lo hi v max_n : Int) (s : String)
    (hv : ask_int inputs lo hi = some v) (hm : 1 ≤ max_n) :
    (lo ≤ v ∧ v ≤ hi) ∧
    1 ≤ choose_count max_n s ∧ choose_count max_n s ≤ max_n := by
  constructor
  · induction inputs with
    | nil => cases hv
    | cons i rest ih =>
      rw [ask_int] at hv
      cases hi2 : pyInt (pyStrip i) with
      | some w =>
        simp only [hi2] at hv
        by_cases hb : lo ≤ w ∧ w ≤ hi
        · rw [if_pos hb] at hv
          cases hv
          exact hb
        · rw [if_neg hb] at hv
          exact ih hv
      | none =>
        simp only [hi2] at hv
        exact ih hv
  · unfold choose_count
    by_cases hb : pyStrip s = ""
    · simp [hb]
      omega
    · rw [if_neg hb]
      cases pyInt (pyStrip s) with
      | some n =>
        constructor
        · exact le_max_left 1 _
        · exact max_le hm (min_le_left _ _)
      | none => exact ⟨hm, le_refl max_n⟩

theorem c6_numeric_prompts_in_bounds_witness :
    ((1 : Int) ≤ 3 ∧ (3 : Int) ≤ 5) ∧
    (1 : Int) ≤ choose_count 5 "abc" ∧ choose_count 5 "abc" ≤ 5 :=
  c6_numeric_prompts_in_bounds ["x", "7", "3"] 1 5 3 5 "abc"
    (by decide) (by decide)

end Flashcards
